import Mathlib

/-!
Verification of the resilient multi-model invocation layer of the SpeakKid
application (src/services/geminiService.ts).  The source file holds two
revisions of the service, separated by a document marker; unless noted
otherwise, definitions below embed the second (current) revision.  JS numbers
are embedded as rationals, `Math.round` as the floor of x + 1/2 (JS rounds
half toward positive infinity), and JS runtime values that the score
normalizer distinguishes (undefined, null, NaN, numbers) as the inductive
type `JsVal`.
-/

/-- Math.round: JS rounds half-up toward positive infinity, i.e. the floor of
x + 1/2.  Rat.floor is used so the definition evaluates inside the kernel. -/
def jsRound (q : ℚ) : ℤ := (q + 1 / 2).floor

theorem jsRound_eq_floor (q : ℚ) : jsRound q = ⌊q + 1 / 2⌋ := by
  unfold jsRound
  rw [Rat.floor_def', ← Rat.floor_def]

/-- Math.min on (non-NaN) numbers. -/
def jsMin (a b : ℚ) : ℚ := if a ≤ b then a else b

/-- Math.max on (non-NaN) numbers. -/
def jsMax (a b : ℚ) : ℚ := if a ≤ b then b else a

theorem jsMin_eq_min (a b : ℚ) : jsMin a b = min a b := by
  unfold jsMin
  split
  · exact (min_eq_left (by assumption)).symm
  · exact (min_eq_right (le_of_not_le (by assumption))).symm

theorem jsMax_eq_max (a b : ℚ) : jsMax a b = max a b := by
  unfold jsMax
  split
  · exact (max_eq_right (by assumption)).symm
  · exact (max_eq_left (le_of_not_le (by assumption))).symm

/-- The runtime values the evaluator's score fields can hold that the two
normalize revisions distinguish: undefined (absent), null, NaN, or a finite
number. -/
inductive JsVal where
  | undef
  | nullv
  | nan
  | num (q : ℚ)
deriving DecidableEq

/-- Embeds the first revision's normalize (src line 330):
`let v = val || 0; if (v > 0 && v <= 1) v = v * 10;
 return Math.min(10, Math.max(0, Math.round(v * 10) / 10));`.
`val || 0` maps undefined, null, NaN and 0 alike to 0. -/
def normalize1 : JsVal → ℚ
  | JsVal.undef => 0
  | JsVal.nullv => 0
  | JsVal.nan => 0
  | JsVal.num v0 =>
    let v1 := if 0 < v0 ∧ v0 ≤ 1 then v0 * 10 else v0
    jsMin 10 (jsMax 0 ((jsRound (v1 * 10) : ℚ) / 10))

/-- Embeds the second revision's normalize (src line 724):
undefined/null return 0; NaN returns 0; `if (v > 0 && v < 1) v = v * 10;`
then `if (v > 10) v = v / 10;` then clamp to [0,10] after rounding to one
decimal. -/
def normalize2 : JsVal → ℚ
  | JsVal.undef => 0
  | JsVal.nullv => 0
  | JsVal.nan => 0
  | JsVal.num v0 =>
    let v1 := if 0 < v0 ∧ v0 < 1 then v0 * 10 else v0
    let v2 := if v1 > 10 then v1 / 10 else v1
    jsMin 10 (jsMax 0 ((jsRound (v2 * 10) : ℚ) / 10))

/-- The fixed alternate model pool (src line 9). -/
def FALLBACK_MODELS : List String :=
  ["gemini-3-flash-preview", "gemini-3-pro-preview", "gemini-2.5-flash"]

/-- Embeds getFallbackModels (src line 27): the selected model first, then the
pool members other than it, in pool order.  The stored selection is passed in
as the `primary` argument. -/
def getFallbackModels (primary : String) : List String :=
  primary :: FALLBACK_MODELS.filter (fun m => m != primary)

example : normalize2 (JsVal.num (4 / 5)) = 8 := by
  norm_num [normalize2, jsMin, jsMax, jsRound_eq_floor]

example : normalize1 (JsVal.num 85) = 10 := by
  norm_num [normalize1, jsMin, jsMax, jsRound_eq_floor]

example : normalize2 (JsVal.num 85) = 17 / 2 := by
  norm_num [normalize2, jsMin, jsMax, jsRound_eq_floor]

example : normalize1 (JsVal.num 1) = 10 := by
  norm_num [normalize1, jsMin, jsMax, jsRound_eq_floor]

example : normalize2 (JsVal.num 1) = 1 := by
  norm_num [normalize2, jsMin, jsMax, jsRound_eq_floor]

/-! ### Errors and their classification (src lines 63-67) -/

/-- A thrown JS error as far as callWithRetry inspects it: a message string and
an optional numeric HTTP status. -/
structure JsError where
  message : String
  status : Option ℕ
deriving DecidableEq

/-- String.toLowerCase, modelled per character (ASCII case folding; the
markers searched for have no upper-case ASCII letters, so this matches the
source's Unicode-aware lowering on every string compared here). -/
def jsToLower (s : String) : String := String.mk (s.data.map Char.toLower)

def startsWithList : List Char → List Char → Bool
  | [], _ => true
  | _ :: _, [] => false
  | p :: ps, c :: cs => p == c && startsWithList ps cs

def hasSub (pat : List Char) : List Char → Bool
  | [] => startsWithList pat []
  | c :: cs => startsWithList pat (c :: cs) || hasSub pat cs

/-- String.includes. -/
def containsSub (s pat : String) : Bool := hasSub pat.toList s.toList

/-- JSON.stringify of an Error instance yields a record with no enumerable
properties. -/
def jsonStringifyError : String := "\x7b\x7d"

/-- `(err?.message || JSON.stringify(err) || '').toLowerCase()` (src line 65). -/
def errorStrOf (e : JsError) : String :=
  jsToLower (if e.message = "" then jsonStringifyError else e.message)

/-- `err?.status === 429 || errorStr.includes('quota') ||
errorStr.includes('resource_exhausted')` (src line 66). -/
def isQuotaError (e : JsError) : Bool :=
  e.status == some 429 || containsSub (errorStrOf e) ("quota")
    || containsSub (errorStrOf e) ("resource_exhausted")

/-- `errorStr.includes('quá thời gian')` (src line 67); the marker is the one
the timeout guard (withTimeout, src line 40) puts into its error message. -/
def isTimeoutError (e : JsError) : Bool :=
  containsSub (errorStrOf e) ("quá thời gian")

/-- The error withTimeout rejects with for model `m` (src line 40, with the
label `Model ${model}` supplied at src line 62); `secsStr` is the decimal
rendering of Math.round(ms / 1000), e.g. "60" for the default timeout. -/
def timeoutError (m : String) (secsStr : String) : JsError :=
  ⟨"⏱️ Model " ++ m ++ " quá thời gian (" ++ secsStr ++ "s). Bé hãy thử lại nhé!", none⟩

/-- The error getApiKey throws when no credential is stored (src line 18). -/
def missingKeyError : JsError :=
  ⟨"CHƯA CÓ API KEY: Bé vui lòng nhấn nút ⚙️ Settings để nhập API Key nhé!", none⟩

/-- Embeds getApiKey (src line 15): reads the stored credential (None models
an absent localStorage entry), throws missingKeyError when it is absent or
empty. -/
def getApiKeyRes (stored : Option String) : Except JsError String :=
  let key := stored.getD ""
  if key = "" then Except.error missingKeyError else Except.ok key

example : isTimeoutError (timeoutError ("gemini-2.5-flash") ("60")) = true := by decide
example : isQuotaError (timeoutError ("gemini-2.5-flash") ("60")) = false := by decide
example : isQuotaError missingKeyError = false := by decide
example : isTimeoutError missingKeyError = false := by decide
example : isQuotaError ⟨"Quota exceeded", none⟩ = true := by decide
example : isQuotaError ⟨"RESOURCE_EXHAUSTED", none⟩ = true := by decide
example : isQuotaError ⟨"boom", some 429⟩ = true := by decide

/-! ### The retry/fallback orchestrator (callWithRetry, src lines 49-90)

The `attempt` callback is embedded as a deterministic function from the model
identifier and the per-model attempt index to an outcome; a timeout of the
guarded call shows up as an `err` outcome carrying the timeout guard's
message, exactly as `callWithRetry` observes it through its catch block.  A
run is recorded as the returned result together with a trace of events: one
`call` event per callback invocation and one `wait` event per backoff sleep. -/

/-- Result of one guarded invocation of the attempt callback. -/
inductive AttemptOutcome (T : Type) where
  | ok (v : T)
  | err (e : JsError)

/-- Observable events of a callWithRetry run. -/
inductive Ev where
  | call (model : String) (attempt : ℕ)
  | wait (ms : ℚ)
deriving DecidableEq

/-- The later error if there is one, otherwise the earlier one (the JS
`lastError` variable keeps the most recent assignment). -/
def lastOf (later earlier : Option JsError) : Option JsError :=
  match later with
  | some e => some e
  | none => earlier

/-- The inner attempt loop of callWithRetry for one model (src lines 58-84):
`remaining` counts the attempts still allowed (starting at
maxRetriesPerModel), `a` is the current attempt index, `d` the current
backoff delay in ms.  Returns the success value if any, the events of this
model's attempts, and the last error this model produced. -/
def tryModel {T : Type} (fn : ℕ → AttemptOutcome T) (model : String) :
    ℕ → ℕ → ℚ → Option T × List Ev × Option JsError
  | 0, _, _ => (none, [], none)
  | r + 1, a, d =>
    match fn a with
    | AttemptOutcome.ok v => (some v, [Ev.call model a], none)
    | AttemptOutcome.err e =>
      if isTimeoutError e then (none, [Ev.call model a], some e)
      else if isQuotaError e && decide (1 ≤ r) then
        let res := tryModel fn model r (a + 1) (d * (5 / 2))
        (res.1, Ev.call model a :: Ev.wait d :: res.2.1, lastOf res.2.2 (some e))
      else (none, [Ev.call model a], some e)

/-- The outer model loop of callWithRetry (src line 57): tries each candidate
model in order with a fresh 1500 ms backoff, short-circuiting on the first
success, threading the `lastError` variable through. -/
def runModels {T : Type} (fn : String → ℕ → AttemptOutcome T) (maxR : ℕ) :
    List String → Option JsError → Option T × List Ev × Option JsError
  | [], lastE => (none, [], lastE)
  | m :: ms, lastE =>
    match tryModel (fn m) m maxR 0 1500 with
    | (some v, evs, le) => (some v, evs, lastOf le lastE)
    | (none, evs, le) =>
      match runModels fn maxR ms (lastOf le lastE) with
      | (res, evs2, le2) => (res, evs ++ evs2, le2)

/-- `lastError?.message || JSON.stringify(lastError)` (src line 88): the
message when non-empty, else the JSON rendering; an unset lastError renders
as "undefined" in the template string. -/
def errMsgOf : Option JsError → String
  | some e => if e.message = "" then jsonStringifyError else e.message
  | none => "undefined"

/-- The terminal aggregate error message thrown at src line 89. -/
def allModelsMsg (le : Option JsError) : String :=
  "TẤT CẢ MODEL ĐỀU LỖI: " ++ errMsgOf le
    ++ "\n\nBé hãy kiểm tra API Key hoặc chờ 30 giây rồi thử lại nhé!"

/-- Embeds callWithRetry (src lines 49-90) over an explicit candidate list
(the source obtains it from getFallbackModels): returns the first success or
throws the aggregate error, together with the full event trace. -/
def callWithRetry {T : Type} (fn : String → ℕ → AttemptOutcome T)
    (models : List String) (maxRetriesPerModel : ℕ) : Except String T × List Ev :=
  match runModels fn maxRetriesPerModel models none with
  | (some v, evs, _) => (Except.ok v, evs)
  | (none, evs, le) => (Except.error (allModelsMsg le), evs)

/-- The shared head of every content request builder (src line 98 etc.): the
callback first evaluates getApiKey, whose exception rejects the attempt
before the task body runs. -/
def builderAttempt {T : Type} (stored : Option String)
    (body : String → ℕ → AttemptOutcome T) (m : String) (a : ℕ) : AttemptOutcome T :=
  match getApiKeyRes stored with
  | Except.error e => AttemptOutcome.err e
  | Except.ok _ => body m a

/-! ### Trace observations -/

/-- The backoff delays slept during a run, in order. -/
def waitsOf : List Ev → List ℚ
  | [] => []
  | Ev.wait d :: l => d :: waitsOf l
  | Ev.call _ _ :: l => waitsOf l

/-- How many times the callback was invoked for model `m`. -/
def callsTo (m : String) : List Ev → ℕ
  | [] => 0
  | Ev.call m2 _ :: l => (if m2 = m then 1 else 0) + callsTo m l
  | Ev.wait _ :: l => callsTo m l

/-- The trace of a model that quota-fails N-1 times and then succeeds:
attempts interleaved with the slept backoff delays. -/
def quotaTrace (m : String) : ℕ → ℕ → ℚ → List Ev
  | 0, _, _ => []
  | 1, a, _ => [Ev.call m a]
  | n + 2, a, d => Ev.call m a :: Ev.wait d :: quotaTrace m (n + 1) (a + 1) (d * (5 / 2))

/-- The geometric backoff schedule: k delays starting at d, ratio 5/2. -/
def geomWaits : ℚ → ℕ → List ℚ
  | _, 0 => []
  | d, k + 1 => d :: geomWaits (d * (5 / 2)) k

deriving instance DecidableEq for Except

example :
    @callWithRetry ℕ (fun m _ => AttemptOutcome.err (timeoutError m ("60"))) ["a", "b"] 1
      = (Except.error (allModelsMsg (some (timeoutError ("b") ("60")))),
         [Ev.call ("a") 0, Ev.call ("b") 0]) := by decide

/-! ### Runs in which every model fails on its first attempt -/

theorem tryModel_first_err {T : Type} (fn : ℕ → AttemptOutcome T) (M : String)
    (r : ℕ) (d : ℚ) (e : JsError) (hfn : fn 0 = AttemptOutcome.err e)
    (hskip : isTimeoutError e = true ∨ isQuotaError e = false) :
    tryModel fn M (r + 1) 0 d = (none, [Ev.call M 0], some e) := by
  simp only [tryModel, hfn]
  rcases hskip with h | h
  · simp [h]
  · cases ht : isTimeoutError e with
    | true => simp [ht]
    | false => simp [ht, h]

theorem runModels_cons_ok {T : Type} (fn : String → ℕ → AttemptOutcome T)
    (maxR : ℕ) (m : String) (ms : List String) (lastE le : Option JsError)
    (v : T) (evs : List Ev)
    (h : tryModel (fn m) m maxR 0 1500 = (some v, evs, le)) :
    runModels fn maxR (m :: ms) lastE = (some v, evs, lastOf le lastE) := by
  simp only [runModels, h]

theorem runModels_cons_fail {T : Type} (fn : String → ℕ → AttemptOutcome T)
    (maxR : ℕ) (m : String) (ms : List String) (lastE le : Option JsError)
    (evs : List Ev)
    (h : tryModel (fn m) m maxR 0 1500 = (none, evs, le)) :
    runModels fn maxR (m :: ms) lastE
      = ((runModels fn maxR ms (lastOf le lastE)).1,
         evs ++ (runModels fn maxR ms (lastOf le lastE)).2.1,
         (runModels fn maxR ms (lastOf le lastE)).2.2) := by
  simp only [runModels, h]

theorem runModels_allFail {T : Type} (fn : String → ℕ → AttemptOutcome T)
    (efn : String → JsError) (r : ℕ)
    (hfn : ∀ m, fn m 0 = AttemptOutcome.err (efn m))
    (hskip : ∀ m, isTimeoutError (efn m) = true ∨ isQuotaError (efn m) = false) :
    ∀ (ms : List String) (m0 : String) (le : Option JsError),
      runModels fn (r + 1) (m0 :: ms) le
        = (none, (m0 :: ms).map (fun m => Ev.call m 0), some (efn (ms.getLastD m0))) := by
  intro ms
  induction ms with
  | nil =>
    intro m0 le
    rw [runModels_cons_fail fn (r + 1) m0 [] le (some (efn m0)) [Ev.call m0 0]
      (tryModel_first_err (fn m0) m0 r 1500 (efn m0) (hfn m0) (hskip m0))]
    simp [runModels, lastOf]
  | cons m1 ms ih =>
    intro m0 le
    rw [runModels_cons_fail fn (r + 1) m0 (m1 :: ms) le (some (efn m0)) [Ev.call m0 0]
      (tryModel_first_err (fn m0) m0 r 1500 (efn m0) (hfn m0) (hskip m0))]
    simp only [lastOf]
    rw [ih m1 (some (efn m0))]
    simp only [List.map_cons, List.getLastD, Prod.mk.injEq, List.cons_append, List.nil_append,
      true_and]
    congr 1
    cases ms with
    | nil => simp
    | cons a t => simp [List.getLast?_cons_cons]

theorem startsWithList_self_append (p t : List Char) : startsWithList p (p ++ t) = true := by
  induction p with
  | nil => simp [startsWithList]
  | cons c cs ih => simp [startsWithList, ih]

theorem hasSub_nil_pat (l : List Char) : hasSub [] l = true := by
  cases l <;> simp [hasSub, startsWithList]

theorem hasSub_of_append (pre p t : List Char) : hasSub p (pre ++ (p ++ t)) = true := by
  induction pre with
  | nil =>
    simp only [List.nil_append]
    cases hp : p ++ t with
    | nil =>
      have : p = [] := by
        cases p
        · rfl
        · simp at hp
      simp [this, hasSub, startsWithList]
    | cons c cs => simp [hasSub, ← hp, startsWithList_self_append]
  | cons a pre ih => simp [hasSub, ih]

/-- The aggregate error message embeds the last underlying error's message. -/
theorem allModelsMsg_embeds (e : JsError) :
    containsSub (allModelsMsg (some e)) e.message = true := by
  unfold containsSub allModelsMsg errMsgOf
  by_cases hm : e.message = ""
  · simp [hm, hasSub_nil_pat]
  · simp only [if_neg hm, String.toList, String.data_append, List.append_assoc]
    exact hasSub_of_append _ _ _

/-- C2: an attempt callback that fails with a timeout error on every candidate
model is invoked exactly once per candidate model, in list order (the trace is
one call event per model, with no waits and no second attempts regardless of
the retry limit), and callWithRetry then throws the terminal aggregate error,
whose message embeds the most recent (= last model's) underlying error's
message. -/
theorem c2_timeout_one_attempt {T : Type} (fn : String → ℕ → AttemptOutcome T)
    (efn : String → JsError) (m0 : String) (ms : List String) (r : ℕ)
    (hfn : ∀ m, fn m 0 = AttemptOutcome.err (efn m))
    (ht : ∀ m, isTimeoutError (efn m) = true) :
    callWithRetry fn (m0 :: ms) (r + 1)
      = (Except.error (allModelsMsg (some (efn (ms.getLastD m0)))),
         (m0 :: ms).map (fun m => Ev.call m 0))
    ∧ containsSub (allModelsMsg (some (efn (ms.getLastD m0))))
        ((efn (ms.getLastD m0)).message) = true := by
  constructor
  · unfold callWithRetry
    rw [runModels_allFail fn efn r hfn (fun m => Or.inl (ht m)) ms m0 none]
  · exact allModelsMsg_embeds _

def c2WitErr : JsError := ⟨"x quá thời gian x", none⟩

def c2WitFn : String → ℕ → AttemptOutcome ℕ := fun _ _ => AttemptOutcome.err c2WitErr

/-- Witness for C2 at a concrete two-model run with retry limit 1. -/
theorem c2_witness :
    @callWithRetry ℕ c2WitFn ["gemini-3-flash-preview", "gemini-2.5-flash"] 1
      = (Except.error (allModelsMsg (some c2WitErr)),
         [Ev.call ("gemini-3-flash-preview") 0, Ev.call ("gemini-2.5-flash") 0])
    ∧ containsSub (allModelsMsg (some c2WitErr)) (c2WitErr.message) = true := by
  have h := c2_timeout_one_attempt c2WitFn (fun _ => c2WitErr)
    ("gemini-3-flash-preview") ["gemini-2.5-flash"] 0 (fun _ => rfl)
    (fun _ => show isTimeoutError c2WitErr = true by decide)
  simpa using h

/-- C6 (amended): with no API credential configured, the attempt callback of
every caller-facing operation fails with the MissingCredential error on each
candidate model; the error is neither quota- nor timeout-classified, so each
model is tried exactly once (model fallback does occur) and the operation
finally throws the terminal aggregate error, which embeds — but is distinct
from — the MissingCredential message. -/
theorem c6_missing_credential_amended {T : Type} (body : String → ℕ → AttemptOutcome T)
    (m0 : String) (ms : List String) (r : ℕ) :
    callWithRetry (builderAttempt none body) (m0 :: ms) (r + 1)
      = (Except.error (allModelsMsg (some missingKeyError)),
         (m0 :: ms).map (fun m => Ev.call m 0))
    ∧ containsSub (allModelsMsg (some missingKeyError)) (missingKeyError.message) = true
    ∧ allModelsMsg (some missingKeyError) ≠ missingKeyError.message := by
  refine ⟨?_, allModelsMsg_embeds _, by decide⟩
  unfold callWithRetry
  rw [runModels_allFail (builderAttempt none body) (fun _ => missingKeyError) r
    (fun _ => rfl)
    (fun _ => Or.inr (show isQuotaError missingKeyError = false by decide)) ms m0 none]

/-- C6 counterexample to the claim as stated: with no credential and the
default candidate list, the callback is invoked three times (one model
fallback per candidate — not "surfaced immediately without model fallback"),
and the failure crossing the boundary is the aggregate error, not the
distinct MissingCredential error. -/
theorem c6_counterexample :
    ((@callWithRetry ℕ (builderAttempt none (fun _ _ => AttemptOutcome.ok 0))
        (getFallbackModels ("gemini-3-flash-preview")) 1).2).length = 3
    ∧ (@callWithRetry ℕ (builderAttempt none (fun _ _ => AttemptOutcome.ok 0))
        (getFallbackModels ("gemini-3-flash-preview")) 1).1
        ≠ Except.error missingKeyError.message := by decide

/-- C5: a preferred model in the pool heads the candidate list, which lists
each pool member exactly once with no duplicates; a preferred model outside
the pool is prepended to the unchanged pool. -/
theorem c5_fallback_candidates :
    (∀ P ∈ FALLBACK_MODELS,
      (getFallbackModels P).head? = some P
        ∧ (∀ m ∈ FALLBACK_MODELS, (getFallbackModels P).count m = 1)
        ∧ (getFallbackModels P).Nodup)
    ∧ ∀ P : String, P ∉ FALLBACK_MODELS → getFallbackModels P = P :: FALLBACK_MODELS := by
  constructor
  · decide
  · intro P hP
    unfold getFallbackModels
    congr 1
    apply List.filter_eq_self.mpr
    intro a ha
    have hne : a ≠ P := fun h => hP (h ▸ ha)
    simpa [bne_iff_ne]

/-- Witness for C5 at a pool member and at an identifier outside the pool. -/
theorem c5_witness :
    (getFallbackModels ("gemini-3-pro-preview")).head? = some ("gemini-3-pro-preview")
    ∧ getFallbackModels ("my-model") = "my-model" :: FALLBACK_MODELS :=
  ⟨(c5_fallback_candidates.1 ("gemini-3-pro-preview") (by decide)).1,
   c5_fallback_candidates.2 ("my-model") (by decide)⟩

/-! ### Quota retry runs -/

theorem tryModel_quota {T : Type} (fn : ℕ → AttemptOutcome T) (efn : ℕ → JsError)
    (M : String) (v : T) :
    ∀ N : ℕ, 1 ≤ N → ∀ (a : ℕ) (d : ℚ) (rem : ℕ), N ≤ rem →
      (∀ k, k < N - 1 → fn (a + k) = AttemptOutcome.err (efn (a + k))) →
      (∀ k, k < N - 1 → isQuotaError (efn (a + k)) = true) →
      (∀ k, k < N - 1 → isTimeoutError (efn (a + k)) = false) →
      fn (a + (N - 1)) = AttemptOutcome.ok v →
      ∃ le, tryModel fn M rem a d = (some v, quotaTrace M N a d, le) := by
  intro N
  induction N using Nat.strong_induction_on with
  | _ N ih =>
    match N with
    | 0 => intro h1; omega
    | 1 =>
      intro _ a d rem hrem herr hq hnt hok
      obtain ⟨r, rfl⟩ : ∃ r, rem = r + 1 := ⟨rem - 1, by omega⟩
      refine ⟨none, ?_⟩
      have hfa : fn a = AttemptOutcome.ok v := by simpa using hok
      simp [tryModel, hfa, quotaTrace]
    | n + 2 =>
      intro _ a d rem hrem herr hq hnt hok
      obtain ⟨r, rfl⟩ : ∃ r, rem = r + 1 := ⟨rem - 1, by omega⟩
      have hr : n + 1 ≤ r := by omega
      have hfa : fn a = AttemptOutcome.err (efn a) := by simpa using herr 0 (by omega)
      have hqa : isQuotaError (efn a) = true := by simpa using hq 0 (by omega)
      have hta : isTimeoutError (efn a) = false := by simpa using hnt 0 (by omega)
      have herr2 : ∀ k, k < (n + 1) - 1 → fn (a + 1 + k) = AttemptOutcome.err (efn (a + 1 + k)) := by
        intro k hk
        have h := herr (k + 1) (by omega)
        have e1 : a + (k + 1) = a + 1 + k := by omega
        rwa [e1] at h
      have hq2 : ∀ k, k < (n + 1) - 1 → isQuotaError (efn (a + 1 + k)) = true := by
        intro k hk
        have h := hq (k + 1) (by omega)
        have e1 : a + (k + 1) = a + 1 + k := by omega
        rwa [e1] at h
      have hnt2 : ∀ k, k < (n + 1) - 1 → isTimeoutError (efn (a + 1 + k)) = false := by
        intro k hk
        have h := hnt (k + 1) (by omega)
        have e1 : a + (k + 1) = a + 1 + k := by omega
        rwa [e1] at h
      have hok2 : fn (a + 1 + ((n + 1) - 1)) = AttemptOutcome.ok v := by
        have e1 : a + 1 + ((n + 1) - 1) = a + (n + 2 - 1) := by omega
        rwa [e1]
      obtain ⟨le, hrec⟩ := ih (n + 1) (by omega) (by omega) (a + 1) (d * (5 / 2)) r hr
        herr2 hq2 hnt2 hok2
      refine ⟨lastOf le (some (efn a)), ?_⟩
      have hdec : 1 ≤ r := by omega
      have hdecb : decide (1 ≤ r) = true := decide_eq_true hdec
      simp only [tryModel, hfa, hta, hqa, hdecb, Bool.true_and, Bool.and_self,
        Bool.false_eq_true, if_false, if_true, hrec]
      simp [quotaTrace]

theorem waitsOf_quotaTrace (M : String) :
    ∀ (N a : ℕ) (d : ℚ), waitsOf (quotaTrace M N a d) = geomWaits d (N - 1) := by
  intro N
  induction N using Nat.strong_induction_on with
  | _ N ih =>
    match N with
    | 0 => intro a d; simp [quotaTrace, waitsOf, geomWaits]
    | 1 => intro a d; simp [quotaTrace, waitsOf, geomWaits]
    | n + 2 =>
      intro a d
      simp only [quotaTrace, waitsOf]
      rw [ih (n + 1) (by omega)]
      simp [geomWaits]

theorem callsTo_quotaTrace (M m : String) :
    ∀ (N a : ℕ) (d : ℚ), callsTo m (quotaTrace M N a d) = if M = m then N else 0 := by
  intro N
  induction N using Nat.strong_induction_on with
  | _ N ih =>
    match N with
    | 0 => intro a d; simp [quotaTrace, callsTo]
    | 1 => intro a d; simp [quotaTrace, callsTo]
    | n + 2 =>
      intro a d
      simp only [quotaTrace, callsTo]
      rw [ih (n + 1) (by omega)]
      split <;> omega

theorem geomWaits_chain : ∀ (k : ℕ) (d : ℚ), 0 < d →
    List.Chain' (fun x y => x < y) (geomWaits d k) := by
  intro k
  induction k with
  | zero => intro d hd; simp [geomWaits]
  | succ k ih =>
    intro d hd
    cases k with
    | zero => simp [geomWaits]
    | succ k2 =>
      have h2 := ih (d * (5 / 2)) (by positivity)
      simp only [geomWaits] at h2 ⊢
      refine List.chain'_cons.mpr ⟨?_, h2⟩
      nlinarith

/-- C1 (amended): if the attempt callback quota-fails on the first N-1
attempts for the model M heading the candidate list — with errors that the
classifier recognises as quota errors and that do not also contain the
timeout marker (timeout classification takes precedence, see the
counterexample) — and succeeds on the Nth, N within the per-model retry
limit, then callWithRetry returns the Nth invocation's value; the trace shows
exactly N calls, all to M, interleaved with the backoff sleeps 1500,
1500·(5/2), ... before each retry, a strictly increasing schedule. -/
theorem c1_quota_retry_amended {T : Type} (fn : String → ℕ → AttemptOutcome T)
    (efn : ℕ → JsError) (M : String) (rest : List String) (maxR N : ℕ) (v : T)
    (hN : 1 ≤ N) (hNmax : N ≤ maxR)
    (herr : ∀ a, a < N - 1 → fn M a = AttemptOutcome.err (efn a))
    (hq : ∀ a, a < N - 1 → isQuotaError (efn a) = true)
    (hnt : ∀ a, a < N - 1 → isTimeoutError (efn a) = false)
    (hok : fn M (N - 1) = AttemptOutcome.ok v) :
    (callWithRetry fn (M :: rest) maxR).1 = Except.ok v
    ∧ (callWithRetry fn (M :: rest) maxR).2 = quotaTrace M N 0 1500
    ∧ callsTo M (quotaTrace M N 0 1500) = N
    ∧ (∀ m, M ≠ m → callsTo m (quotaTrace M N 0 1500) = 0)
    ∧ waitsOf (quotaTrace M N 0 1500) = geomWaits 1500 (N - 1)
    ∧ List.Chain' (fun x y => x < y) (geomWaits 1500 (N - 1)) := by
  have herr0 : ∀ k, k < N - 1 → fn M (0 + k) = AttemptOutcome.err (efn (0 + k)) := by
    intro k hk
    simpa using herr k hk
  have hq0 : ∀ k, k < N - 1 → isQuotaError (efn (0 + k)) = true := by
    intro k hk
    simpa using hq k hk
  have hnt0 : ∀ k, k < N - 1 → isTimeoutError (efn (0 + k)) = false := by
    intro k hk
    simpa using hnt k hk
  have hok0 : fn M (0 + (N - 1)) = AttemptOutcome.ok v := by simpa using hok
  obtain ⟨le, htm⟩ := tryModel_quota (fn M) efn M v N hN 0 1500 maxR hNmax
    herr0 hq0 hnt0 hok0
  have hrun := runModels_cons_ok fn maxR M rest none le v (quotaTrace M N 0 1500) htm
  refine ⟨?_, ?_, ?_, ?_, waitsOf_quotaTrace M N 0 1500,
    geomWaits_chain (N - 1) 1500 (by norm_num)⟩
  · unfold callWithRetry
    rw [hrun]
  · unfold callWithRetry
    rw [hrun]
  · rw [callsTo_quotaTrace M M N 0 1500]
    simp
  · intro m hm
    rw [callsTo_quotaTrace M m N 0 1500]
    simp [hm]

def c1WitErr : JsError := ⟨"quota", none⟩

def c1WitFn : String → ℕ → AttemptOutcome ℕ :=
  fun _ a => if a = 0 then AttemptOutcome.err c1WitErr else AttemptOutcome.ok 7

/-- Witness for C1 (amended) at a concrete run: model "m1", quota failure on
attempt 0, success with value 7 on attempt 1, retry limit 2. -/
theorem c1_witness :
    (@callWithRetry ℕ c1WitFn ["m1", "m2"] 2).1 = Except.ok 7
    ∧ (@callWithRetry ℕ c1WitFn ["m1", "m2"] 2).2 = quotaTrace ("m1") 2 0 1500
    ∧ callsTo ("m1") (quotaTrace ("m1") 2 0 1500) = 2
    ∧ (∀ m, "m1" ≠ m → callsTo m (quotaTrace ("m1") 2 0 1500) = 0)
    ∧ waitsOf (quotaTrace ("m1") 2 0 1500) = geomWaits 1500 (2 - 1)
    ∧ List.Chain' (fun x y => x < y) (geomWaits 1500 (2 - 1)) :=
  c1_quota_retry_amended c1WitFn (fun _ => c1WitErr) ("m1") ["m2"] 2 2 7
    (by omega) (by omega)
    (by intro a ha
        have ha0 : a = 0 := by omega
        subst ha0
        rfl)
    (by intro a ha
        have ha0 : a = 0 := by omega
        subst ha0
        show isQuotaError c1WitErr = true
        decide)
    (by intro a ha
        have ha0 : a = 0 := by omega
        subst ha0
        show isTimeoutError c1WitErr = false
        decide)
    rfl

def c1CexFn : String → ℕ → AttemptOutcome ℕ :=
  fun _ a => if a = 0 then AttemptOutcome.err ⟨"quá thời gian", some 429⟩
    else AttemptOutcome.ok 42

/-- C1 counterexample to the claim as stated: the first attempt's error has
HTTP status 429 — a quota error by the claim's (and the classifier's) own
definition — but its message also contains the timeout marker, which the
orchestrator checks first; with N = 2 within the retry limit 2 the claim
predicts success value 42 after exactly 2 calls, yet the run makes a single
call to the model and fails. -/
theorem c1_counterexample :
    isQuotaError ⟨"quá thời gian", some 429⟩ = true
    ∧ (@callWithRetry ℕ c1CexFn ["m1"] 2).1 ≠ Except.ok 42
    ∧ callsTo ("m1") (@callWithRetry ℕ c1CexFn ["m1"] 2).2 = 1 := by decide

/-! ### The score normalizer -/

theorem clamp_bounds (t : ℚ) : 0 ≤ jsMin 10 (jsMax 0 t) ∧ jsMin 10 (jsMax 0 t) ≤ 10 := by
  rw [jsMin_eq_min, jsMax_eq_max]
  exact ⟨le_min (by norm_num) (le_max_left 0 t), min_le_left _ _⟩

theorem normalize2_bounds (x : JsVal) : 0 ≤ normalize2 x ∧ normalize2 x ≤ 10 := by
  cases x with
  | undef => norm_num [normalize2]
  | nullv => norm_num [normalize2]
  | nan => norm_num [normalize2]
  | num v => exact clamp_bounds _

theorem clamp_tenths (m : ℤ) :
    ∃ k : ℤ, jsMin 10 (jsMax 0 ((m : ℚ) / 10)) = (k : ℚ) / 10 ∧ 0 ≤ k ∧ k ≤ 100 := by
  by_cases h0 : (0 : ℚ) ≤ (m : ℚ) / 10
  · rw [show jsMax 0 ((m : ℚ) / 10) = (m : ℚ) / 10 from by unfold jsMax; rw [if_pos h0]]
    by_cases h10 : (10 : ℚ) ≤ (m : ℚ) / 10
    · rw [show jsMin 10 ((m : ℚ) / 10) = 10 from by unfold jsMin; rw [if_pos h10]]
      exact ⟨100, by norm_num, by norm_num, le_refl _⟩
    · rw [show jsMin 10 ((m : ℚ) / 10) = (m : ℚ) / 10 from by unfold jsMin; rw [if_neg h10]]
      refine ⟨m, rfl, ?_, ?_⟩
      · rw [le_div_iff₀ (show (0 : ℚ) < 10 by norm_num)] at h0
        have hm : (0 : ℚ) ≤ (m : ℚ) := by linarith
        exact_mod_cast hm
      · rw [not_le, div_lt_iff₀ (show (0 : ℚ) < 10 by norm_num)] at h10
        have hm : (m : ℚ) < 100 := by linarith
        have hm2 : m < 100 := by exact_mod_cast hm
        omega
  · rw [show jsMax 0 ((m : ℚ) / 10) = 0 from by unfold jsMax; rw [if_neg h0]]
    rw [show jsMin 10 (0 : ℚ) = 0 from by unfold jsMin; norm_num]
    exact ⟨0, by norm_num, le_refl _, by norm_num⟩

theorem normalize2_tenths (x : JsVal) :
    ∃ k : ℤ, normalize2 x = (k : ℚ) / 10 ∧ 0 ≤ k ∧ k ≤ 100 := by
  cases x with
  | undef => exact ⟨0, by norm_num [normalize2], le_refl _, by norm_num⟩
  | nullv => exact ⟨0, by norm_num [normalize2], le_refl _, by norm_num⟩
  | nan => exact ⟨0, by norm_num [normalize2], le_refl _, by norm_num⟩
  | num v => exact clamp_tenths _

theorem jsMax_of_nonneg (x : ℚ) (h : 0 ≤ x) : jsMax 0 x = x := by
  unfold jsMax
  rw [if_pos h]

theorem jsMin_of_le_ten (x : ℚ) (h : x ≤ 10) : jsMin 10 x = x := by
  unfold jsMin
  split
  · exact le_antisymm (by assumption) h
  · rfl

/-- normalize2 on a number in the scale-up branch (0 < v < 1). -/
theorem normalize2_case_small (q : ℚ) (h1 : 0 < q) (h2 : q < 1) :
    normalize2 (JsVal.num q) = jsMin 10 (jsMax 0 ((jsRound (q * 10 * 10) : ℚ) / 10)) := by
  simp only [normalize2]
  rw [if_pos (And.intro h1 h2), if_neg (show ¬ q * 10 > 10 by linarith)]

/-- normalize2 on a number with no rescaling (neither branch fires). -/
theorem normalize2_case_mid (q : ℚ) (h1 : ¬ (0 < q ∧ q < 1)) (h2 : ¬ q > 10) :
    normalize2 (JsVal.num q) = jsMin 10 (jsMax 0 ((jsRound (q * 10) : ℚ) / 10)) := by
  simp only [normalize2]
  rw [if_neg h1, if_neg h2]

/-- normalize2 on a number in the scale-down branch (v > 10). -/
theorem normalize2_case_high (q : ℚ) (h1 : ¬ (0 < q ∧ q < 1)) (h2 : q > 10) :
    normalize2 (JsVal.num q) = jsMin 10 (jsMax 0 ((jsRound (q / 10 * 10) : ℚ) / 10)) := by
  simp only [normalize2]
  rw [if_neg h1, if_pos h2]

theorem result_ge_one (m : ℤ) (hm : 10 ≤ m) :
    1 ≤ jsMin 10 (jsMax 0 ((m : ℚ) / 10)) := by
  have hmq : (10 : ℚ) ≤ (m : ℚ) := by exact_mod_cast hm
  have hm1 : (1 : ℚ) ≤ (m : ℚ) / 10 := by
    rw [le_div_iff₀ (show (0 : ℚ) < 10 by norm_num)]
    linarith
  rw [jsMax_of_nonneg _ (by linarith)]
  unfold jsMin
  split
  · norm_num
  · exact hm1

/-- Applying the second revision's normalize to a value it has already
produced, when that value is between 1 and 10, is the identity. -/
theorem normalize2_fix (k : ℤ) (h10 : 10 ≤ k) (h100 : k ≤ 100) :
    normalize2 (JsVal.num ((k : ℚ) / 10)) = (k : ℚ) / 10 := by
  have hkq : (10 : ℚ) ≤ (k : ℚ) := by exact_mod_cast h10
  have hkq2 : (k : ℚ) ≤ (100 : ℚ) := by exact_mod_cast h100
  have hv1 : (1 : ℚ) ≤ (k : ℚ) / 10 := by
    rw [le_div_iff₀ (show (0 : ℚ) < 10 by norm_num)]
    linarith
  have hv10 : (k : ℚ) / 10 ≤ 10 := by
    rw [div_le_iff₀ (show (0 : ℚ) < 10 by norm_num)]
    linarith
  rw [normalize2_case_mid ((k : ℚ) / 10) (by intro hc; linarith [hc.2]) (by linarith)]
  have hmul : (k : ℚ) / 10 * 10 = (k : ℚ) := by field_simp
  have hround : jsRound ((k : ℚ) / 10 * 10) = k := by
    rw [hmul, jsRound_eq_floor, Int.floor_eq_iff]
    constructor
    · linarith
    · linarith
  rw [hround, jsMax_of_nonneg _ (by linarith), jsMin_of_le_ten _ hv10]

theorem normalize2_ge_one (q : ℚ) (h : 95 / 1000 ≤ q) :
    1 ≤ normalize2 (JsVal.num q) := by
  by_cases h1 : 0 < q ∧ q < 1
  · rw [normalize2_case_small q h1.1 h1.2]
    refine result_ge_one _ ?_
    rw [jsRound_eq_floor]
    apply Int.le_floor.mpr
    push_cast
    linarith
  · by_cases h2 : q > 10
    · rw [normalize2_case_high q h1 h2]
      refine result_ge_one _ ?_
      rw [jsRound_eq_floor]
      apply Int.le_floor.mpr
      have hmul : q / 10 * 10 = q := by field_simp
      rw [hmul]
      push_cast
      linarith
    · rw [normalize2_case_mid q h1 h2]
      have hq1 : 1 ≤ q := by
        rcases not_and_or.mp h1 with hh | hh
        · exact absurd (by linarith : 0 < q) hh
        · linarith [not_lt.mp hh]
      refine result_ge_one _ ?_
      rw [jsRound_eq_floor]
      apply Int.le_floor.mpr
      push_cast
      linarith

theorem normalize2_small (q : ℚ) (h0 : 0 ≤ q) (h : q < 5 / 1000) :
    normalize2 (JsVal.num q) = 0 := by
  by_cases h1 : 0 < q ∧ q < 1
  · rw [normalize2_case_small q h1.1 h1.2]
    have hm : jsRound (q * 10 * 10) = 0 := by
      rw [jsRound_eq_floor, Int.floor_eq_zero_iff]
      constructor
      · linarith
      · linarith
    rw [hm]
    norm_num [jsMin, jsMax]
  · have hq : q = 0 := by
      rcases not_and_or.mp h1 with hh | hh
      · linarith [not_lt.mp hh]
      · exact absurd (by linarith : q < 1) hh
    subst hq
    rw [normalize2_case_mid 0 h1 (by norm_num)]
    have hm : jsRound ((0 : ℚ) * 10) = 0 := by
      rw [jsRound_eq_floor, Int.floor_eq_zero_iff]
      constructor
      · norm_num
      · norm_num
    rw [hm]
    norm_num [jsMin, jsMax]

/-- C8 (amended): the normalizer is idempotent on every finite x ≥ 0 outside
the window [0.005, 0.095); inside that window normalize(x) lands in (0,1) and
the second application multiplies by 10 again (see the counterexample). -/
theorem c8_idempotent_amended (q : ℚ) (h0 : 0 ≤ q)
    (h : q < 5 / 1000 ∨ 95 / 1000 ≤ q) :
    normalize2 (JsVal.num (normalize2 (JsVal.num q))) = normalize2 (JsVal.num q) := by
  rcases h with h | h
  · rw [normalize2_small q h0 h]
    exact normalize2_small 0 (le_refl 0) (by norm_num)
  · obtain ⟨k, hk, hk0, hk100⟩ := normalize2_tenths (JsVal.num q)
    have h1 := normalize2_ge_one q h
    rw [hk] at h1 ⊢
    have hk10 : 10 ≤ k := by
      rw [le_div_iff₀ (show (0 : ℚ) < 10 by norm_num)] at h1
      have : (10 : ℚ) ≤ (k : ℚ) := by linarith
      exact_mod_cast this
    exact normalize2_fix k hk10 hk100

/-- Witness for C8 (amended) at x = 2. -/
theorem c8_witness :
    normalize2 (JsVal.num (normalize2 (JsVal.num 2))) = normalize2 (JsVal.num 2) :=
  c8_idempotent_amended 2 (by norm_num) (Or.inr (by norm_num))

/-- C8 counterexample to the claim as stated: x = 0.05 is finite and ≥ 0, yet
normalize(0.05) = 0.5 and normalize(0.5) = 5, so the round trip is not the
identity. -/
theorem c8_counterexample :
    normalize2 (JsVal.num (normalize2 (JsVal.num (1 / 20))))
      ≠ normalize2 (JsVal.num (1 / 20)) := by
  have h1 : normalize2 (JsVal.num (1 / 20)) = 1 / 2 := by
    norm_num [normalize2, jsMin, jsMax, jsRound_eq_floor]
  have h2 : normalize2 (JsVal.num (1 / 2)) = 5 := by
    norm_num [normalize2, jsMin, jsMax, jsRound_eq_floor]
  rw [h1, h2]
  norm_num

/-- C3: the second revision's normalizer maps absent/null/NaN to 0,
multiplies a value in (0,1) by 10 and divides a value above 10 by 10 before
rounding to the nearest 0.1 and clamping to [0,10]; every output is a
multiple of 0.1 inside [0,10]; and the cited examples evaluate as specified:
normalize(0.8) = 8, normalize(85) = 8.5, normalize(7.3) = 7.3,
normalize(-1) = 0. -/
theorem c3_normalizer_rules :
    (normalize2 JsVal.undef = 0 ∧ normalize2 JsVal.nullv = 0 ∧ normalize2 JsVal.nan = 0)
    ∧ (∀ q : ℚ, 0 < q → q < 1 →
        normalize2 (JsVal.num q) = jsMin 10 (jsMax 0 ((jsRound (q * 10 * 10) : ℚ) / 10)))
    ∧ (∀ q : ℚ, 10 < q →
        normalize2 (JsVal.num q) = jsMin 10 (jsMax 0 ((jsRound (q / 10 * 10) : ℚ) / 10)))
    ∧ (∀ x : JsVal, 0 ≤ normalize2 x ∧ normalize2 x ≤ 10)
    ∧ (∀ x : JsVal, ∃ k : ℤ, normalize2 x = (k : ℚ) / 10)
    ∧ normalize2 (JsVal.num (4 / 5)) = 8
    ∧ normalize2 (JsVal.num 85) = 17 / 2
    ∧ normalize2 (JsVal.num (73 / 10)) = 73 / 10
    ∧ normalize2 (JsVal.num (-1)) = 0 := by
  refine ⟨⟨rfl, rfl, rfl⟩, ?_, ?_, normalize2_bounds, ?_, ?_, ?_, ?_, ?_⟩
  · intro q hq0 hq1
    exact normalize2_case_small q hq0 hq1
  · intro q hq
    exact normalize2_case_high q (by intro hc; linarith [hc.2]) hq
  · intro x
    obtain ⟨k, hk, _, _⟩ := normalize2_tenths x
    exact ⟨k, hk⟩
  · norm_num [normalize2, jsMin, jsMax, jsRound_eq_floor]
  · norm_num [normalize2, jsMin, jsMax, jsRound_eq_floor]
  · norm_num [normalize2, jsMin, jsMax, jsRound_eq_floor]
  · norm_num [normalize2, jsMin, jsMax, jsRound_eq_floor]

/-- Witness for C3 applying the two scale rules at 0.5 and 85. -/
theorem c3_witness :
    normalize2 (JsVal.num (1 / 2))
      = jsMin 10 (jsMax 0 ((jsRound ((1 : ℚ) / 2 * 10 * 10) : ℚ) / 10))
    ∧ normalize2 (JsVal.num 85)
      = jsMin 10 (jsMax 0 ((jsRound ((85 : ℚ) / 10 * 10) : ℚ) / 10)) :=
  ⟨c3_normalizer_rules.2.1 (1 / 2) (by norm_num) (by norm_num),
   c3_normalizer_rules.2.2.1 85 (by norm_num)⟩

/-- C10 (amended): the two normalize revisions agree on absent/null/NaN and
on every number v with v < 1 or 1 < v ≤ 10; they differ at v = 1 (first
revision scales it to 10, second leaves 1) and may differ for v > 10 (first
clamps to 10, second divides by 10 — see the counterexample at 85). -/
theorem c10_normalize_agreement_amended :
    normalize1 JsVal.undef = normalize2 JsVal.undef
    ∧ normalize1 JsVal.nullv = normalize2 JsVal.nullv
    ∧ normalize1 JsVal.nan = normalize2 JsVal.nan
    ∧ ∀ q : ℚ, q < 1 ∨ (1 < q ∧ q ≤ 10) →
        normalize1 (JsVal.num q) = normalize2 (JsVal.num q) := by
  refine ⟨rfl, rfl, rfl, ?_⟩
  intro q hq
  simp only [normalize1]
  rcases hq with hq | ⟨hq1, hq10⟩
  · by_cases h0 : 0 < q
    · rw [if_pos (And.intro h0 (le_of_lt hq)), normalize2_case_small q h0 hq]
    · rw [if_neg (show ¬ (0 < q ∧ q ≤ 1) from fun hc => h0 hc.1),
        normalize2_case_mid q (fun hc => h0 hc.1) (by linarith)]
  · rw [if_neg (show ¬ (0 < q ∧ q ≤ 1) from fun hc => absurd hc.2 (not_le.mpr hq1)),
      normalize2_case_mid q (fun hc => absurd hc.2 (not_lt_of_gt hq1)) (not_lt.mpr hq10)]

/-- Witness for C10 (amended) at v = 5. -/
theorem c10_witness : normalize1 (JsVal.num 5) = normalize2 (JsVal.num 5) :=
  c10_normalize_agreement_amended.2.2.2 5 (Or.inr ⟨by norm_num, by norm_num⟩)

/-- C10 counterexample: at 85 the first revision clamps to 10 while the
second divides by 10 and yields 8.5, so the two normalize implementations are
not extensionally equal. -/
theorem c10_counterexample : normalize1 (JsVal.num 85) ≠ normalize2 (JsVal.num 85) := by
  have h1 : normalize1 (JsVal.num 85) = 10 := by
    norm_num [normalize1, jsMin, jsMax, jsRound_eq_floor]
  have h2 : normalize2 (JsVal.num 85) = 17 / 2 := by
    norm_num [normalize2, jsMin, jsMax, jsRound_eq_floor]
  rw [h1, h2]
  norm_num

/-! ### The evaluator's score pipeline (second revision, src lines 736-753) -/

/-- The six raw dimension fields as read off the parsed response object. -/
structure RawScores where
  pronunciation : JsVal
  fluency : JsVal
  intonation : JsVal
  vocabulary : JsVal
  grammar : JsVal
  taskFulfillment : JsVal

/-- The six normalized dimension scores. -/
structure Scores where
  pronunciation : ℚ
  fluency : ℚ
  intonation : ℚ
  vocabulary : ℚ
  grammar : ℚ
  taskFulfillment : ℚ
deriving DecidableEq

/-- The `scores` object built at src line 736: normalize applied per field. -/
def normalizeAll (r : RawScores) : Scores :=
  ⟨normalize2 r.pronunciation, normalize2 r.fluency, normalize2 r.intonation,
   normalize2 r.vocabulary, normalize2 r.grammar, normalize2 r.taskFulfillment⟩

def scoreSum (s : Scores) : ℚ :=
  s.pronunciation + s.fluency + s.intonation + s.vocabulary + s.grammar + s.taskFulfillment

/-- The aggregate score of the second revision (src lines 747-748):
`avg = (sum of the six normalized scores) / 6;
 finalScore = Math.round(avg * 10) / 10` — no further rescaling or clamp. -/
def evalAggregate (r : RawScores) : ℚ :=
  let avg := scoreSum (normalizeAll r) / 6
  (jsRound (avg * 10) : ℚ) / 10

theorem evalAggregate_repr (r : RawScores) :
    ∃ k : ℤ, evalAggregate r = (k : ℚ) / 10 ∧ 0 ≤ k ∧ k ≤ 100 := by
  have hp := normalize2_bounds r.pronunciation
  have hf := normalize2_bounds r.fluency
  have hi := normalize2_bounds r.intonation
  have hv := normalize2_bounds r.vocabulary
  have hg := normalize2_bounds r.grammar
  have ht := normalize2_bounds r.taskFulfillment
  have hS : 0 ≤ scoreSum (normalizeAll r) ∧ scoreSum (normalizeAll r) ≤ 60 := by
    simp only [scoreSum, normalizeAll]
    constructor
    · linarith [hp.1, hf.1, hi.1, hv.1, hg.1, ht.1]
    · linarith [hp.2, hf.2, hi.2, hv.2, hg.2, ht.2]
  refine ⟨jsRound (scoreSum (normalizeAll r) / 6 * 10), rfl, ?_, ?_⟩
  · rw [jsRound_eq_floor]
    apply Int.le_floor.mpr
    push_cast
    nlinarith [hS.1]
  · rw [jsRound_eq_floor]
    have : (⌊scoreSum (normalizeAll r) / 6 * 10 + 1 / 2⌋ : ℤ) < 101 := by
      apply Int.floor_lt.mpr
      push_cast
      nlinarith [hS.2]
    omega

/-- C4: the aggregate score equals the arithmetic mean of the six normalized
dimension scores rounded to one decimal, with no further rescaling or
clamping (it already lies in [0,10] as a multiple of 0.1); on normalized
scores {9,8,7,9,8,10} the aggregate is exactly 8.5. -/
theorem c4_aggregate_mean :
    (∀ r : RawScores, evalAggregate r
      = (jsRound ((normalize2 r.pronunciation + normalize2 r.fluency
          + normalize2 r.intonation + normalize2 r.vocabulary + normalize2 r.grammar
          + normalize2 r.taskFulfillment) / 6 * 10) : ℚ) / 10)
    ∧ (∀ r : RawScores, 0 ≤ evalAggregate r ∧ evalAggregate r ≤ 10
        ∧ ∃ k : ℤ, evalAggregate r = (k : ℚ) / 10)
    ∧ evalAggregate ⟨JsVal.num 9, JsVal.num 8, JsVal.num 7, JsVal.num 9,
        JsVal.num 8, JsVal.num 10⟩ = 17 / 2 := by
  refine ⟨fun r => rfl, ?_, ?_⟩
  · intro r
    obtain ⟨k, hk, hk0, hk100⟩ := evalAggregate_repr r
    have hkq : (0 : ℚ) ≤ (k : ℚ) := by exact_mod_cast hk0
    have hkq2 : (k : ℚ) ≤ (100 : ℚ) := by exact_mod_cast hk100
    rw [hk]
    refine ⟨by positivity, ?_, k, rfl⟩
    rw [div_le_iff₀ (show (0 : ℚ) < 10 by norm_num)]
    linarith
  · norm_num [evalAggregate, normalizeAll, scoreSum, normalize2, jsMin, jsMax,
      jsRound_eq_floor]

/-! ### The audio decode utility (decodeAudioData, src lines 768-777) -/

/-- One little-endian signed 16-bit sample from its two bytes (the
Int16Array view over the byte buffer). -/
def toInt16 (lo hi : ℕ) : ℤ :=
  let u := lo + 256 * hi
  if u < 32768 then (u : ℤ) else (u : ℤ) - 65536

/-- The Int16Array view: consecutive byte pairs, little endian. -/
def bytesToInt16s : List ℕ → List ℤ
  | [] => []
  | [_] => []
  | lo :: hi :: rest => toInt16 lo hi :: bytesToInt16s rest

/-- Embeds decodeAudioData (src lines 768-777): reinterprets the bytes as
int16 samples, splits `frameCount = samples / channels` frames, and fills
channel c with `dataInt16[i * numChannels + channel] / 32768`.  The
AudioContext and sample rate only configure the returned buffer container and
carry no sample data. -/
def decodeAudioData (data : List ℕ) (sampleRate numChannels : ℕ) : List (List ℚ) :=
  let dataInt16 := bytesToInt16s data
  let frameCount := dataInt16.length / numChannels
  (List.range numChannels).map (fun channel =>
    (List.range frameCount).map (fun i =>
      ((dataInt16.getD (i * numChannels + channel) 0 : ℤ) : ℚ) / 32768))

theorem toInt16_bounds (lo hi : ℕ) (hlo : lo < 256) (hhi : hi < 256) :
    -32768 ≤ toInt16 lo hi ∧ toInt16 lo hi ≤ 32767 := by
  simp only [toInt16]
  split_ifs <;> omega

theorem bytesToInt16s_bounds : ∀ data : List ℕ, (∀ b ∈ data, b < 256) →
    ∀ z ∈ bytesToInt16s data, -32768 ≤ z ∧ z ≤ 32767 := by
  intro data
  induction data using bytesToInt16s.induct with
  | case1 =>
    intro _ z hz
    simp [bytesToInt16s] at hz
  | case2 _ =>
    intro _ z hz
    simp [bytesToInt16s] at hz
  | case3 lo hi rest ih =>
    intro hb z hz
    simp only [bytesToInt16s, List.mem_cons] at hz
    rcases hz with h | h
    · subst h
      exact toInt16_bounds lo hi (hb lo (by simp)) (hb hi (by simp))
    · exact ih (fun b hbm => hb b (by simp [hbm])) z h

theorem getD_mem_or_zero (l : List ℤ) (i : ℕ) : l.getD i 0 ∈ l ∨ l.getD i 0 = 0 := by
  induction l generalizing i with
  | nil => right; rfl
  | cons a t ih =>
    cases i with
    | zero => left; simp
    | succ j =>
      rcases ih j with h | h
      · left
        simp only [List.getD_cons_succ]
        exact List.mem_cons_of_mem a h
      · right
        simpa using h

/-- C9: the audio decode utility is a pure function of the bytes; each output
sample is the corresponding int16 sample divided by 32768 and hence lies in
[-1,1]; the 4-byte buffer holding the little-endian int16 samples
[16384, -16384] with one channel decodes to [0.5, -0.5]. -/
theorem c9_audio_decode :
    decodeAudioData [0, 64, 0, 192] 24000 1 = [[1 / 2, -1 / 2]]
    ∧ ∀ (data : List ℕ) (sr nc : ℕ), (∀ b ∈ data, b < 256) →
        ∀ chan ∈ decodeAudioData data sr nc, ∀ s ∈ chan, -1 ≤ s ∧ s ≤ 1 := by
  constructor
  · norm_num [decodeAudioData, bytesToInt16s, toInt16, List.range_succ, List.getD]
  · intro data sr nc hb chan hchan s hs
    simp only [decodeAudioData, List.mem_map, List.mem_range] at hchan
    obtain ⟨channel, _, rfl⟩ := hchan
    simp only [List.mem_map, List.mem_range] at hs
    obtain ⟨i, _, rfl⟩ := hs
    have hz : -32768 ≤ (bytesToInt16s data).getD (i * nc + channel) 0
        ∧ (bytesToInt16s data).getD (i * nc + channel) 0 ≤ 32767 := by
      rcases getD_mem_or_zero (bytesToInt16s data) (i * nc + channel) with h | h
      · exact bytesToInt16s_bounds data hb _ h
      · rw [h]
        norm_num
    have h1 : (-32768 : ℚ) ≤ (((bytesToInt16s data).getD (i * nc + channel) 0 : ℤ) : ℚ) := by
      exact_mod_cast hz.1
    have h2 : (((bytesToInt16s data).getD (i * nc + channel) 0 : ℤ) : ℚ) ≤ 32767 := by
      exact_mod_cast hz.2
    constructor
    · rw [le_div_iff₀ (show (0 : ℚ) < 32768 by norm_num)]
      linarith
    · rw [div_le_iff₀ (show (0 : ℚ) < 32768 by norm_num)]
      linarith

/-- Witness for C9: the decoded first sample 1/2 of the concrete buffer obeys
the bound. -/
theorem c9_witness : -1 ≤ (1 / 2 : ℚ) ∧ (1 / 2 : ℚ) ≤ 1 :=
  c9_audio_decode.2 [0, 64, 0, 192] 24000 1 (by decide) [1 / 2, -1 / 2]
    (by rw [c9_audio_decode.1]; exact List.mem_singleton_self _) (1 / 2)
    (by norm_num)

/-! ### JSON parsing in the builders (src lines 174, 547/616, 719)

The builders call `JSON.parse(response.text || '<default>')`: the default
literal is substituted only when `response.text` is undefined or the empty
string; a non-empty body is handed to JSON.parse, which throws on malformed
input.  JSON.parse is a platform builtin; it is embedded below as a
recursive-descent parser for the JSON fragment exercised here (objects,
arrays, strings without escapes, booleans, null, plain decimal numbers);
parse failure is `none`, standing for the thrown SyntaxError. -/

inductive Json where
  | null
  | bool (b : Bool)
  | num (q : ℚ)
  | str (s : String)
  | arr (elems : List Json)
  | obj (fields : List (String × Json))

def lbrace : Char := Char.ofNat 123

def rbrace : Char := Char.ofNat 125

def isJsonWs (c : Char) : Bool := c == ' ' || c == '\n' || c == '\t' || c == '\r'

def skipWs : List Char → List Char
  | [] => []
  | c :: cs => if isJsonWs c then skipWs cs else c :: cs

/-- Scans a string literal body after the opening quote; escape sequences are
outside the fragment used by the service's default literals. -/
def scanStrChars : List Char → Option (List Char × List Char)
  | [] => none
  | c :: cs =>
    if c == '\"' then some ([], cs)
    else if c == '\\' then none
    else
      match scanStrChars cs with
      | some (s, rest) => some (c :: s, rest)
      | none => none

def takeDigits : List Char → List Char × List Char
  | [] => ([], [])
  | c :: cs =>
    if c.isDigit then
      let p := takeDigits cs
      (c :: p.1, p.2)
    else ([], c :: cs)

def digitsToNat (ds : List Char) : ℕ :=
  ds.foldl (fun a c => a * 10 + (c.toNat - 48)) 0

def scanNumber (cs : List Char) : Option (ℚ × List Char) :=
  let stripped := match cs with
    | c :: t => if c == '-' then (true, t) else (false, cs)
    | [] => (false, cs)
  let ds := takeDigits stripped.2
  if ds.1.isEmpty then none
  else
    let ipart : ℚ := (digitsToNat ds.1 : ℚ)
    match ds.2 with
    | c :: t =>
      if c == '.' then
        let fs := takeDigits t
        if fs.1.isEmpty then none
        else
          let q := ipart + (digitsToNat fs.1 : ℚ) / ((10 : ℚ) ^ fs.1.length)
          some (if stripped.1 then -q else q, fs.2)
      else some (if stripped.1 then -ipart else ipart, ds.2)
    | [] => some (if stripped.1 then -ipart else ipart, ds.2)

/-- The three recursion modes of the descent: a value, an object's members, an
array's elements. -/
inductive PTask where
  | val
  | members
  | elems

inductive PRes where
  | v (j : Json)
  | fields (fs : List (String × Json))
  | items (xs : List Json)

def parseF : ℕ → PTask → List Char → Option (PRes × List Char)
  | 0, _, _ => none
  | f + 1, PTask.val, cs =>
    match skipWs cs with
    | [] => none
    | c :: t =>
      if c == '\"' then
        match scanStrChars t with
        | some (s, rest) => some (PRes.v (Json.str (String.mk s)), rest)
        | none => none
      else if c == lbrace then
        match skipWs t with
        | c2 :: t2 =>
          if c2 == rbrace then some (PRes.v (Json.obj []), t2)
          else
            match parseF f PTask.members (c2 :: t2) with
            | some (PRes.fields fs, rest) =>
              match skipWs rest with
              | c3 :: t3 => if c3 == rbrace then some (PRes.v (Json.obj fs), t3) else none
              | [] => none
            | _ => none
        | [] => none
      else if c == '[' then
        match skipWs t with
        | c2 :: t2 =>
          if c2 == ']' then some (PRes.v (Json.arr []), t2)
          else
            match parseF f PTask.elems (c2 :: t2) with
            | some (PRes.items xs, rest) =>
              match skipWs rest with
              | c3 :: t3 => if c3 == ']' then some (PRes.v (Json.arr xs), t3) else none
              | [] => none
            | _ => none
        | [] => none
      else if startsWithList ("true".toList) (c :: t) then
        some (PRes.v (Json.bool true), (c :: t).drop 4)
      else if startsWithList ("false".toList) (c :: t) then
        some (PRes.v (Json.bool false), (c :: t).drop 5)
      else if startsWithList ("null".toList) (c :: t) then
        some (PRes.v Json.null, (c :: t).drop 4)
      else
        match scanNumber (c :: t) with
        | some (q, rest) => some (PRes.v (Json.num q), rest)
        | none => none
  | f + 1, PTask.members, cs =>
    match skipWs cs with
    | [] => none
    | c :: t =>
      if c == '\"' then
        match scanStrChars t with
        | some (k, r1) =>
          match skipWs r1 with
          | c2 :: t2 =>
            if c2 == ':' then
              match parseF f PTask.val t2 with
              | some (PRes.v v, r2) =>
                match skipWs r2 with
                | c3 :: t3 =>
                  if c3 == ',' then
                    match parseF f PTask.members t3 with
                    | some (PRes.fields fs, r3) =>
                      some (PRes.fields ((String.mk k, v) :: fs), r3)
                    | _ => none
                  else some (PRes.fields [(String.mk k, v)], c3 :: t3)
                | [] => some (PRes.fields [(String.mk k, v)], [])
              | _ => none
            else none
          | [] => none
        | none => none
      else none
  | f + 1, PTask.elems, cs =>
    match parseF f PTask.val cs with
    | some (PRes.v v, r1) =>
      match skipWs r1 with
      | c2 :: t2 =>
        if c2 == ',' then
          match parseF f PTask.elems t2 with
          | some (PRes.items xs, r2) => some (PRes.items (v :: xs), r2)
          | _ => none
        else some (PRes.items [v], c2 :: t2)
      | [] => some (PRes.items [v], [])
    | _ => none

/-- JSON.parse: parse one value, then require only whitespace to remain;
`none` models the thrown SyntaxError. -/
def jsonParse (s : String) : Option Json :=
  match parseF (2 * s.length + 8) PTask.val s.toList with
  | some (PRes.v v, rest) => if (skipWs rest).isEmpty then some v else none
  | _ => none

/-- The default object literal of the script builders (src lines 174, 547,
616): `'{"intro":"", "points":[], "conclusion":"", "lessonVocab":[]}'`. -/
def defaultScriptText : String :=
  "\x7b\"intro\":\"\", \"points\":[], \"conclusion\":\"\", \"lessonVocab\":[]\x7d"

/-- `response.text || deflt`: undefined or empty text falls back to the
default literal; any other text is passed through unchanged. -/
def jsOrDefault (text : Option String) (deflt : String) : String :=
  match text with
  | none => deflt
  | some t => if t = "" then deflt else t

/-- The response handling of generatePresentationScript and
generateScriptFromImage: `JSON.parse(response.text || '<default>')`. -/
def generateScriptPost (text : Option String) : Option Json :=
  jsonParse (jsOrDefault text defaultScriptText)

/-- The parsed default object. -/
def defaultScriptObj : Json :=
  Json.obj [("intro", Json.str ""), ("points", Json.arr []),
    ("conclusion", Json.str ""), ("lessonVocab", Json.arr [])]

/-- Property access `raw.<k>` as consumed by normalize: a missing property is
undefined; null and numbers pass through; `Number(..)` of the other JSON
value kinds reached here is modelled by its value on booleans and NaN
otherwise. -/
def numFieldOf (j : Json) (k : String) : JsVal :=
  match j with
  | Json.obj fs =>
    match fs.lookup k with
    | some (Json.num q) => JsVal.num q
    | some Json.null => JsVal.nullv
    | some (Json.bool b) => JsVal.num (if b then 1 else 0)
    | some _ => JsVal.nan
    | none => JsVal.undef
  | _ => JsVal.undef

def rawScoresOf (j : Json) : RawScores :=
  ⟨numFieldOf j ("pronunciation"), numFieldOf j ("fluency"), numFieldOf j ("intonation"),
   numFieldOf j ("vocabulary"), numFieldOf j ("grammar"), numFieldOf j ("taskFulfillment")⟩

/-- The evaluator's response handling (src line 719 onward):
`JSON.parse(response.text || '{}')`, then normalization of the six dimension
fields and the aggregate score. -/
def evaluatePost (text : Option String) : Option (Scores × ℚ) :=
  match jsonParse (jsOrDefault text ("\x7b\x7d")) with
  | none => none
  | some raw => some (normalizeAll (rawScoresOf raw), evalAggregate (rawScoresOf raw))

example : jsonParse ("\x7b\x7d") = some (Json.obj []) := rfl
example : jsonParse ("oops") = none := rfl
example : jsonParse defaultScriptText = some defaultScriptObj := rfl

/-- C7 (amended): when the attempt-level call succeeds but the response body
is absent or empty, the script builders substitute the zero-valued default
object without raising, and the evaluator substitutes the empty object and
still normalizes it, returning all six scores 0 and aggregate 0.  A
non-empty body that fails to parse is not substituted: JSON.parse throws
inside the attempt (see the counterexample). -/
theorem c7_default_substitution_amended :
    generateScriptPost none = some defaultScriptObj
    ∧ generateScriptPost (some "") = some defaultScriptObj
    ∧ evaluatePost none = some (⟨0, 0, 0, 0, 0, 0⟩, 0)
    ∧ evaluatePost (some "") = some (⟨0, 0, 0, 0, 0, 0⟩, 0) := by
  have hagg : evalAggregate (rawScoresOf (Json.obj [])) = 0 := by
    norm_num [evalAggregate, scoreSum, normalizeAll, rawScoresOf, numFieldOf,
      normalize2, jsRound_eq_floor]
  refine ⟨rfl, rfl, ?_, ?_⟩
  · show some (normalizeAll (rawScoresOf (Json.obj [])),
      evalAggregate (rawScoresOf (Json.obj []))) = _
    rw [hagg]
    rfl
  · show some (normalizeAll (rawScoresOf (Json.obj [])),
      evalAggregate (rawScoresOf (Json.obj []))) = _
    rw [hagg]
    rfl

/-- C7 counterexample to the claim as stated: the non-empty, unparseable
response body "oops" makes JSON.parse throw inside the attempt (modelled as
`none`) instead of being substituted by the default object. -/
theorem c7_counterexample :
    generateScriptPost (some "oops") = none
    ∧ generateScriptPost (some "oops") ≠ some defaultScriptObj
    ∧ evaluatePost (some "oops") = none := by
  refine ⟨rfl, ?_, rfl⟩
  intro h
  exact Option.noConfusion (h.symm.trans rfl)
